import Mathlib

/-!
Shallow embedding of the conversation / message delivery engine of the
Pulse backend (Express + Mongoose + Socket.IO).

User ids, conversation ids and message ids are modelled as `Nat`.
Mongoose `Map` fields (`unreadCounts`, `reactions`) are modelled as
association lists with MongoDB update-operator semantics:
`$set` overwrites in place or appends, `$inc` adds in place or inserts
the increment, `$addToSet` appends when absent.

The database state is a pair of collections (conversations, messages);
`findOne` / `findById` is `List.find?`, `findByIdAndUpdate` rewrites the
document(s) with the matching `_id`.
-/

namespace Pulse

/-- Result envelope: REST handlers answer `{success: true, data}` or an
error status with a message; socket handlers acknowledge with
`{status: "ok"}` or `{status: "error"}`. -/
inductive Res (α : Type) where
  | ok (a : α)
  | err (msg : String)
  deriving DecidableEq, Repr

def Res.isOk {α : Type} : Res α → Bool
  | .ok _ => true
  | .err _ => false

/-- `message.type` enum of `src/models/Message.js`. -/
inductive MsgType where
  | text
  | image
  | video
  | gif
  | sticker
  | system
  deriving DecidableEq, Repr

/-- `conversation.type` enum of `src/models/Conversation.js`. -/
inductive ConvType where
  | direct
  | group
  deriving DecidableEq, Repr

/-- `message.media` subdocument of `src/models/Message.js`. -/
structure Media where
  url : Option String := none
  thumbnail : Option String := none
  width : Option Nat := none
  height : Option Nat := none
  mimeType : Option String := none
  deriving DecidableEq, Repr

/-- A document of the `messages` collection (`src/models/Message.js`).
`createdAt` is the mongoose timestamp. -/
structure Message where
  id : Nat
  conversation : Nat
  sender : Nat
  type : MsgType := .text
  content : Option String := none
  media : Option Media := none
  replyTo : Option Nat := none
  reactions : List (Nat × String) := []
  readBy : List Nat := []
  isDeleted : Bool := false
  createdAt : Nat := 0
  deriving DecidableEq, Repr

/-- A document of the `conversations` collection
(`src/models/Conversation.js`, group-aware variant). -/
structure Conversation where
  id : Nat
  type : ConvType := .direct
  participants : List Nat := []
  groupName : Option String := none
  groupAvatar : Option String := none
  groupDescription : Option String := none
  admins : List Nat := []
  createdBy : Option Nat := none
  lastMessage : Option Nat := none
  lastMessageContent : String := "Started a conversation"
  lastMessageSender : Option Nat := none
  lastMessageAt : Nat := 0
  unreadCounts : List (Nat × Nat) := []
  deriving DecidableEq, Repr

/-- Database state: the two collections plus fresh-id counters. -/
structure St where
  conversations : List Conversation := []
  messages : List Message := []
  nextConvId : Nat := 0
  nextMsgId : Nat := 0
  deriving DecidableEq, Repr

/-! ### Map-field primitives (MongoDB update-operator semantics) -/

/-- Read a map field (`unreadCounts.u`). -/
def mlookup : List (Nat × Nat) → Nat → Option Nat
  | [], _ => none
  | (k, v) :: rest, u => if k = u then some v else mlookup rest u

/-- `$set` on a map field: overwrite in place, or append a new entry. -/
def mset : List (Nat × Nat) → Nat → Nat → List (Nat × Nat)
  | [], u, v => [(u, v)]
  | (k, w) :: rest, u, v =>
    if k = u then (u, v) :: rest else (k, w) :: mset rest u v

/-- `$inc` on a map field: add in place, or insert the increment when
the key is absent. -/
def minc : List (Nat × Nat) → Nat → Nat → List (Nat × Nat)
  | [], u, n => [(u, n)]
  | (k, w) :: rest, u, n =>
    if k = u then (k, w + n) :: rest else (k, w) :: minc rest u n

/-- The key set of a map field. -/
def mkeys : List (Nat × Nat) → List Nat
  | [] => []
  | (k, _) :: rest => k :: mkeys rest

/-- Apply every `$inc` of an update document in order. -/
def applyIncs (m : List (Nat × Nat)) (incs : List (Nat × Nat)) :
    List (Nat × Nat) :=
  incs.foldl (fun acc kv => minc acc kv.1 kv.2) m

/-- `$addToSet` on an id array. -/
def addToSet (l : List Nat) (u : Nat) : List Nat :=
  if l.contains u then l else l ++ [u]

/-- Mongoose `trim: true` on a string path: strip leading and trailing
whitespace (structural implementation, equivalent to `String.trim`). -/
def trimString (s : String) : String :=
  ⟨(((s.data.dropWhile Char.isWhitespace).reverse.dropWhile
      Char.isWhitespace).reverse)⟩

/-! ### Collection primitives -/

/-- `findByIdAndUpdate` on the `conversations` collection: rewrite the
document with the matching `_id` (ids are unique in MongoDB; a miss is a
no-op, matching mongo's null return without error). -/
def updateConvById (l : List Conversation) (cid : Nat)
    (f : Conversation → Conversation) : List Conversation :=
  l.map fun c => if c.id = cid then f c else c

/-- `findByIdAndUpdate` on the `messages` collection. -/
def updateMsgById (l : List Message) (mid : Nat)
    (f : Message → Message) : List Message :=
  l.map fun m => if m.id = mid then f m else m

/-- `[...new Set(xs)]`: JavaScript set spread keeps first occurrences. -/
def dedupFirstAux (seen : List Nat) : List Nat → List Nat
  | [] => []
  | x :: xs =>
    if seen.contains x then dedupFirstAux seen xs
    else x :: dedupFirstAux (x :: seen) xs

def dedupFirst (l : List Nat) : List Nat := dedupFirstAux [] l

/-! ### REST chat controller (`src/controllers/chatController.js`) -/

/-- The `findOne` filter of `getOrCreateConversation`:
`{ type: 'direct', participants: { $all: [cur, tgt], $size: 2 } }`
(`$all` with a duplicated element degenerates to plain containment,
exactly as in MongoDB). -/
def isDirectPairConv (a b : Nat) (c : Conversation) : Bool :=
  c.type == .direct && c.participants.contains a &&
    c.participants.contains b && c.participants.length == 2

/-- `POST /chat/conversation` (`getOrCreateConversation`): find the
direct conversation for the pair or create it with
`unreadCounts = { [cur]: 0, [tgt]: 0 }` (a JS object literal, so a
duplicated key collapses). `now` stands for `Date.now` used by the
schema defaults. -/
def getOrCreateConversation (st : St) (currentUserId : Nat)
    (targetUserId : Option Nat) (now : Nat) : St × Res Conversation :=
  match targetUserId with
  | none => (st, .err "Target user required")
  | some tgt =>
    match st.conversations.find? (isDirectPairConv currentUserId tgt) with
    | some c => (st, .ok c)
    | none =>
      let c : Conversation :=
        { id := st.nextConvId
          type := .direct
          participants := [currentUserId, tgt]
          unreadCounts := mset (mset [] currentUserId 0) tgt 0
          lastMessageAt := now }
      ({ st with
          conversations := st.conversations ++ [c]
          nextConvId := st.nextConvId + 1 },
        .ok c)

/-- `GET /chat/:conversationId/messages` sort: `{ createdAt: -1 }`
(newest first); insertion is stable for equal timestamps. -/
def insertDesc (m : Message) : List Message → List Message
  | [] => [m]
  | x :: xs =>
    if x.createdAt < m.createdAt then m :: x :: xs else x :: insertDesc m xs

def sortDesc : List Message → List Message
  | [] => []
  | x :: xs => insertDesc x (sortDesc xs)

/-- The message filter of `getMessages`:
`{ conversation: cid, isDeleted: { $ne: true }, createdAt: { $lt: before } }`
(the comment in the source reads "Exclude deleted messages"). -/
def messagePageFilter (cid : Nat) (before : Option Nat) (m : Message) :
    Bool :=
  m.conversation == cid && !m.isDeleted &&
    (match before with
     | some b => decide (m.createdAt < b)
     | none => true)

/-- `GET /chat/:conversationId/messages` (`getMessages`): participant
check, filtered query, newest-first sort, `limit`-sized page. -/
def getMessages (st : St) (userId cid limit : Nat)
    (before : Option Nat) : Res (List Message) :=
  match st.conversations.find?
      (fun c => c.id == cid && c.participants.contains userId) with
  | none => .err "Not authorized"
  | some _ =>
    .ok ((sortDesc (st.messages.filter (messagePageFilter cid before))).take
      limit)

/-- `POST /chat/:conversationId/read` (`markConversationRead`):
`findByIdAndUpdate(cid, { $set: { [unreadCounts.userId]: 0 } })` and an
unconditional success response — no participant check, and a missing
conversation is a silent no-op. -/
def markConversationRead (st : St) (userId cid : Nat) : St × Res Unit :=
  let convs := updateConvById st.conversations cid
    (fun c => { c with unreadCounts := mset c.unreadCounts userId 0 })
  ({ st with conversations := convs }, .ok ())

/-- `DELETE /chat/messages/:messageId` (`deleteMessage`): only the
sender's own message is found; soft delete writes `isDeleted` and the
tombstone content. -/
def deleteMessage (st : St) (userId mid : Nat) : St × Res Unit :=
  match st.messages.find? (fun m => m.id == mid && m.sender == userId) with
  | none => (st, .err "Message not found or unauthorized")
  | some _ =>
    let msgs := updateMsgById st.messages mid
      (fun m => { m with
        isDeleted := true
        content := some "This message was deleted" })
    ({ st with messages := msgs }, .ok ())

/-! ### Socket chat handlers (`src/controllers/postController.js`,
socket module, reply-aware variant) -/

/-- Preview text of `send_message` step C. -/
def previewText (content : Option String) : MsgType → Option String
  | .image => some "📷 Photo"
  | .gif => some "🎬 GIF"
  | .sticker => some "😊 Sticker"
  | .video => some "🎥 Video"
  | _ => content

/-- The `$inc` map built in `send_message` step D: one key per
participant other than the sender (a JS object, so duplicates collapse). -/
def incFor (participants : List Nat) (senderId : Nat) :
    List (Nat × Nat) :=
  (participants.filter (fun i => i != senderId)).foldl
    (fun m u => mset m u 1) []

/-- `send_message` step E: the single
`Conversation.findByIdAndUpdate(cid, {...})` document — preview fields
plus the `$inc` map in one update. A `lastMessageContent: undefined`
key is dropped by mongoose, leaving the field unchanged. -/
def applySendUpdate (msgId : Nat) (preview : Option String)
    (senderId now : Nat) (incs : List (Nat × Nat))
    (c : Conversation) : Conversation :=
  { c with
    lastMessage := some msgId
    lastMessageContent := preview.getD c.lastMessageContent
    lastMessageAt := now
    lastMessageSender := some senderId
    unreadCounts := applyIncs c.unreadCounts incs }

/-- Socket `send_message`: persist the message (no participant check, no
content validation), then update the conversation preview and unread
counters in one `findByIdAndUpdate`. The error branch fires only when
the conversation id does not resolve — after the message was created. -/
def sendMessage (st : St) (senderId cid : Nat) (content : Option String)
    (mtype : MsgType) (media : Option Media) (replyTo : Option Nat)
    (now : Nat) : St × Res Message :=
  let msg : Message :=
    { id := st.nextMsgId
      conversation := cid
      sender := senderId
      type := mtype
      content := content.map trimString
      media := media
      replyTo := replyTo
      createdAt := now }
  let st1 : St :=
    { st with messages := st.messages ++ [msg], nextMsgId := st.nextMsgId + 1 }
  match st1.conversations.find? (fun c => c.id == cid) with
  | none => (st1, .err "Conversation not found")
  | some conv =>
    let convs := updateConvById st1.conversations cid
      (applySendUpdate msg.id (previewText content mtype) senderId now
        (incFor conv.participants senderId))
    ({ st1 with conversations := convs }, .ok msg)

/-- Socket `mark_seen`: `$set` the caller's unread counter to 0 (no
participant check) and, when a message id is given, `$addToSet` the
caller into that message's `readBy`. -/
def markSeen (st : St) (userId cid : Nat) (messageId : Option Nat) : St :=
  let convs := updateConvById st.conversations cid
    (fun c => { c with unreadCounts := mset c.unreadCounts userId 0 })
  let st1 : St := { st with conversations := convs }
  match messageId with
  | none => st1
  | some mid =>
    let msgs := updateMsgById st1.messages mid
      (fun m => { m with readBy := addToSet m.readBy userId })
    { st1 with messages := msgs }

/-- Socket `delete_message`: identical sender-only find and soft delete
as the REST `deleteMessage`; the conversation id in the payload is used
only for the broadcast, not for authorization. -/
def deleteMessageSocket (st : St) (userId _conversationId mid : Nat) :
    St × Res Unit :=
  match st.messages.find? (fun m => m.id == mid && m.sender == userId) with
  | none => (st, .err "Not authorized or message not found")
  | some _ =>
    let msgs := updateMsgById st.messages mid
      (fun m => { m with
        isDeleted := true
        content := some "This message was deleted" })
    ({ st with messages := msgs }, .ok ())

/-! ### Group controller (`src/controllers/userController.js`,
group section) -/

/-- `POST /groups` (`createGroup`). Usernames come from the external
identity collaborator (`req.user.username`); they only shape system
message text. -/
def createGroup (st : St) (creatorId : Nat) (creatorUsername : String)
    (groupName : Option String) (participants : List Nat)
    (groupDescription groupAvatar : Option String) (now : Nat) :
    St × Res Conversation :=
  if (groupName.getD "").isEmpty || participants.length < 2 then
    (st, .err "Group name and at least 2 participants required")
  else
    let allParticipants := dedupFirst (creatorId :: participants)
    let unreadCounts :=
      allParticipants.foldl (fun m u => mset m u 0) []
    let group : Conversation :=
      { id := st.nextConvId
        type := .group
        groupName := groupName
        groupDescription := groupDescription
        groupAvatar := groupAvatar
        participants := allParticipants
        admins := [creatorId]
        createdBy := some creatorId
        lastMessageContent :=
          (if creatorUsername.isEmpty then "Someone" else creatorUsername)
            ++ " created the group"
        lastMessageAt := now
        unreadCounts := unreadCounts }
    let sysMsg : Message :=
      { id := st.nextMsgId
        conversation := st.nextConvId
        sender := creatorId
        type := .system
        content := some (creatorUsername ++ " created \""
          ++ groupName.getD "" ++ "\"")
        createdAt := now }
    ({ st with
        conversations := st.conversations ++ [group]
        messages := st.messages ++ [sysMsg]
        nextConvId := st.nextConvId + 1
        nextMsgId := st.nextMsgId + 1 },
      .ok group)

/-- First update document of `addGroupMembers`:
`{ $addToSet: { participants: { $each: newMembers } } }`. -/
def addMembersUpdate (newMembers : List Nat) (c : Conversation) :
    Conversation :=
  { c with participants := newMembers.foldl addToSet c.participants }

/-- Second update document of `addGroupMembers`:
`{ $set: { [unreadCounts.id]: 0 } }` for each new member. -/
def initUnreadUpdate (newMembers : List Nat) (c : Conversation) :
    Conversation :=
  { c with unreadCounts :=
      newMembers.foldl (fun m u => mset m u 0) c.unreadCounts }

/-- Update document of `removeGroupMember` / `leaveGroup`:
`{ $pull: { participants: userId, admins: userId } }` — it touches no
`unreadCounts` key. -/
def pullMemberUpdate (target : Nat) (c : Conversation) : Conversation :=
  { c with
    participants := c.participants.filter (fun i => i != target)
    admins := c.admins.filter (fun i => i != target) }

/-- `POST /groups/:groupId/members` (`addGroupMembers`): admin-only;
`$addToSet` the genuinely new members, then `$set` their unread
counters to 0; emits a system message. -/
def addGroupMembers (st : St) (actorId : Nat) (actorUsername : String)
    (groupId : Nat) (userIds : List Nat) (addedUsernames : String)
    (now : Nat) : St × Res Unit :=
  if userIds.isEmpty then (st, .err "User IDs required")
  else
    match st.conversations.find?
        (fun c => c.id == groupId && c.type == .group &&
          c.admins.contains actorId) with
    | none => (st, .err "Not authorized or group not found")
    | some group =>
      let newMembers :=
        userIds.filter (fun i => !group.participants.contains i)
      if newMembers.isEmpty then
        (st, .err "All users are already members")
      else
        let convs1 :=
          updateConvById st.conversations groupId
            (addMembersUpdate newMembers)
        let convs2 :=
          updateConvById convs1 groupId (initUnreadUpdate newMembers)
        let sysMsg : Message :=
          { id := st.nextMsgId
            conversation := groupId
            sender := actorId
            type := .system
            content := some (actorUsername ++ " added " ++ addedUsernames)
            createdAt := now }
        ({ st with
            conversations := convs2
            messages := st.messages ++ [sysMsg]
            nextMsgId := st.nextMsgId + 1 },
          .ok ())

/-- `DELETE /groups/:groupId/members/:userId` (`removeGroupMember`):
admin-only, creator un-removable; `$pull` from `participants` and
`admins` — the update document touches no `unreadCounts` key. -/
def removeGroupMember (st : St) (actorId : Nat) (actorUsername : String)
    (groupId targetId : Nat) (removedUsername : String) (now : Nat) :
    St × Res Unit :=
  match st.conversations.find?
      (fun c => c.id == groupId && c.type == .group &&
        c.admins.contains actorId) with
  | none => (st, .err "Not authorized")
  | some group =>
    if group.createdBy == some targetId then
      (st, .err "Cannot remove group creator")
    else
      let convs1 :=
        updateConvById st.conversations groupId
          (pullMemberUpdate targetId)
      let sysMsg : Message :=
        { id := st.nextMsgId
          conversation := groupId
          sender := actorId
          type := .system
          content := some (actorUsername ++ " removed " ++ removedUsername)
          createdAt := now }
      ({ st with
          conversations := convs1
          messages := st.messages ++ [sysMsg]
          nextMsgId := st.nextMsgId + 1 },
        .ok ())

/-- `POST /groups/:groupId/leave` (`leaveGroup`): participant-only
self-removal, creator may not leave; same `$pull`-only update as
`removeGroupMember`, again touching no `unreadCounts` key. -/
def leaveGroup (st : St) (userId : Nat) (username : String)
    (groupId : Nat) (now : Nat) : St × Res Unit :=
  match st.conversations.find?
      (fun c => c.id == groupId && c.type == .group &&
        c.participants.contains userId) with
  | none => (st, .err "Group not found")
  | some group =>
    if group.createdBy == some userId then
      (st, .err "Group creator cannot leave. Delete the group instead.")
    else
      let convs1 :=
        updateConvById st.conversations groupId (pullMemberUpdate userId)
      let sysMsg : Message :=
        { id := st.nextMsgId
          conversation := groupId
          sender := userId
          type := .system
          content := some (username ++ " left the group")
          createdAt := now }
      ({ st with
          conversations := convs1
          messages := st.messages ++ [sysMsg]
          nextMsgId := st.nextMsgId + 1 },
        .ok ())

/-! ### Invariant predicates -/

/-- Spec §8 invariant: the key set of `unreadCounts` equals the
participant set (as sets). Stated over the list representations, so it
is decidable on concrete documents. -/
def keysMatchParticipants (c : Conversation) : Prop :=
  (∀ u ∈ mkeys c.unreadCounts, u ∈ c.participants) ∧
    (∀ u ∈ c.participants, u ∈ mkeys c.unreadCounts)

instance (c : Conversation) : Decidable (keysMatchParticipants c) := by
  unfold keysMatchParticipants; infer_instance

/-! ### Concrete fixtures -/

/-- A direct conversation between users 1 and 2. -/
def convAB : Conversation :=
  { id := 0, participants := [1, 2], unreadCounts := [(1, 0), (2, 0)] }

/-- State holding only `convAB`. -/
def stAB : St := { conversations := [convAB], nextConvId := 1 }

/-- The empty database. -/
def st0 : St := {}

/-- A group with creator/admin 1 and members 2, 3. -/
def groupG : Conversation :=
  { id := 0
    type := .group
    groupName := some "G"
    participants := [1, 2, 3]
    admins := [1]
    createdBy := some 1
    unreadCounts := [(1, 0), (2, 0), (3, 0)] }

/-- State holding only `groupG`. -/
def stG : St := { conversations := [groupG], nextConvId := 1 }

/-- A soft-deleted (tombstoned) message in `convAB`. -/
def delMsg : Message :=
  { id := 0
    conversation := 0
    sender := 1
    isDeleted := true
    content := some "This message was deleted"
    createdAt := 5 }

/-- State with `convAB` and the tombstoned `delMsg`. -/
def stDel : St :=
  { conversations := [convAB], messages := [delMsg]
    nextConvId := 1, nextMsgId := 1 }

/-- A live message from user 1 in `convAB`. -/
def msgHi : Message :=
  { id := 0, conversation := 0, sender := 1
    content := some "hi", createdAt := 3 }

/-- State with `convAB` and the live `msgHi`. -/
def stMsg : St :=
  { conversations := [convAB], messages := [msgHi]
    nextConvId := 1, nextMsgId := 1 }

/-! ### Lemmas about the map-field primitives -/

theorem mlookup_mset (m : List (Nat × Nat)) (k v p : Nat) :
    mlookup (mset m k v) p = if p = k then some v else mlookup m p := by
  induction m with
  | nil =>
    simp only [mset]
    by_cases h : p = k
    · subst h; simp [mlookup]
    · have h' : ¬ k = p := fun h2 => h h2.symm
      simp [mlookup, h, h']
  | cons kv rest ih =>
    obtain ⟨a, w⟩ := kv
    simp only [mset]
    by_cases ha : a = k
    · subst ha
      simp only [if_pos rfl]
      by_cases h : p = a
      · subst h; simp [mlookup]
      · have h' : ¬ a = p := fun h2 => h h2.symm
        simp [mlookup, h, h']
    · simp only [if_neg ha]
      by_cases h : p = a
      · subst h
        have hpk : ¬ p = k := ha
        simp [mlookup, hpk]
      · have h' : ¬ a = p := fun h2 => h h2.symm
        simp [mlookup, h', ih]

theorem mlookup_minc (m : List (Nat × Nat)) (k n p : Nat) :
    mlookup (minc m k n) p =
      if p = k then some ((mlookup m k).getD 0 + n) else mlookup m p := by
  induction m with
  | nil =>
    simp only [minc]
    by_cases h : p = k
    · subst h; simp [mlookup]
    · have h' : ¬ k = p := fun h2 => h h2.symm
      simp [mlookup, h, h']
  | cons kv rest ih =>
    obtain ⟨a, w⟩ := kv
    simp only [minc]
    by_cases ha : a = k
    · subst ha
      simp only [if_pos rfl]
      by_cases h : p = a
      · subst h; simp [mlookup]
      · have h' : ¬ a = p := fun h2 => h h2.symm
        simp [mlookup, h, h']
    · simp only [if_neg ha]
      by_cases h : p = a
      · subst h
        have hpk : ¬ p = k := ha
        have hkp : ¬ k = p := fun h2 => ha h2.symm
        simp [mlookup, hpk, hkp]
      · have h' : ¬ a = p := fun h2 => h h2.symm
        have hka : ¬ k = a := fun h2 => ha h2.symm
        simp [mlookup, h', ih, hka, ha]

theorem mlookup_eq_none_iff (m : List (Nat × Nat)) (p : Nat) :
    mlookup m p = none ↔ p ∉ mkeys m := by
  induction m with
  | nil => simp [mlookup, mkeys]
  | cons kv rest ih =>
    obtain ⟨a, w⟩ := kv
    by_cases h : a = p
    · subst h; simp [mlookup, mkeys]
    · have h' : ¬ p = a := fun h2 => h h2.symm
      simp [mlookup, mkeys, h, h', ih]

theorem mem_mkeys_iff (m : List (Nat × Nat)) (p : Nat) :
    p ∈ mkeys m ↔ mlookup m p ≠ none := by
  rw [Ne, mlookup_eq_none_iff, not_not]

theorem mem_mkeys_mset (m : List (Nat × Nat)) (k v p : Nat) :
    p ∈ mkeys (mset m k v) ↔ p = k ∨ p ∈ mkeys m := by
  rw [mem_mkeys_iff, mem_mkeys_iff, mlookup_mset]
  by_cases h : p = k <;> simp [h]

theorem mem_mkeys_minc (m : List (Nat × Nat)) (k n p : Nat) :
    p ∈ mkeys (minc m k n) ↔ p = k ∨ p ∈ mkeys m := by
  rw [mem_mkeys_iff, mem_mkeys_iff, mlookup_minc]
  by_cases h : p = k <;> simp [h]

theorem mkeys_mset_eq (m : List (Nat × Nat)) (k v : Nat) :
    mkeys (mset m k v) =
      if k ∈ mkeys m then mkeys m else mkeys m ++ [k] := by
  induction m with
  | nil => simp [mset, mkeys]
  | cons kv rest ih =>
    obtain ⟨a, w⟩ := kv
    by_cases ha : a = k
    · subst ha; simp [mset, mkeys]
    · have hk : ¬ k = a := fun h2 => ha h2.symm
      by_cases hmem : k ∈ mkeys rest
      · simp [mset, mkeys, ha, hk, hmem, ih]
      · simp [mset, mkeys, ha, hk, hmem, ih]

theorem nodup_mkeys_mset (m : List (Nat × Nat)) (k v : Nat)
    (h : (mkeys m).Nodup) : (mkeys (mset m k v)).Nodup := by
  rw [mkeys_mset_eq]
  by_cases hmem : k ∈ mkeys m
  · simpa [hmem] using h
  · rw [if_neg hmem]
    refine List.Nodup.append h (List.nodup_singleton k) ?_
    intro a ha hak
    rw [List.mem_singleton] at hak
    exact hmem (hak ▸ ha)

theorem mlookup_foldl_mset (l : List Nat) (v : Nat)
    (acc : List (Nat × Nat)) (p : Nat) :
    mlookup (l.foldl (fun m u => mset m u v) acc) p =
      if p ∈ l then some v else mlookup acc p := by
  induction l generalizing acc with
  | nil => simp
  | cons u rest ih =>
    simp only [List.foldl_cons, List.mem_cons]
    rw [ih]
    by_cases hr : p ∈ rest
    · simp [hr]
    · by_cases hu : p = u
      · simp [hr, hu, mlookup_mset]
      · simp [hr, hu, mlookup_mset]

theorem mem_mkeys_foldl_mset (l : List Nat) (v : Nat)
    (acc : List (Nat × Nat)) (p : Nat) :
    p ∈ mkeys (l.foldl (fun m u => mset m u v) acc) ↔
      p ∈ l ∨ p ∈ mkeys acc := by
  induction l generalizing acc with
  | nil => simp
  | cons u rest ih =>
    simp only [List.foldl_cons, List.mem_cons]
    rw [ih]
    constructor
    · rintro (h | h)
      · exact Or.inl (Or.inr h)
      · rcases (mem_mkeys_mset acc u v p).mp h with h2 | h2
        · exact Or.inl (Or.inl h2)
        · exact Or.inr h2
    · rintro ((h | h) | h)
      · exact Or.inr ((mem_mkeys_mset acc u v p).mpr (Or.inl h))
      · exact Or.inl h
      · exact Or.inr ((mem_mkeys_mset acc u v p).mpr (Or.inr h))

theorem nodup_mkeys_foldl_mset (l : List Nat) (v : Nat)
    (acc : List (Nat × Nat)) (h : (mkeys acc).Nodup) :
    (mkeys (l.foldl (fun m u => mset m u v) acc)).Nodup := by
  induction l generalizing acc with
  | nil => simpa
  | cons u rest ih =>
    simp only [List.foldl_cons]
    exact ih _ (nodup_mkeys_mset acc u v h)

theorem mem_mkeys_applyIncs (m incs : List (Nat × Nat)) (p : Nat) :
    p ∈ mkeys (applyIncs m incs) ↔ p ∈ mkeys m ∨ p ∈ mkeys incs := by
  induction incs generalizing m with
  | nil => simp [applyIncs, mkeys]
  | cons kv rest ih =>
    obtain ⟨k, v⟩ := kv
    show p ∈ mkeys (applyIncs (minc m k v) rest) ↔ _
    rw [ih, mem_mkeys_minc]
    show _ ↔ p ∈ mkeys m ∨ p ∈ k :: mkeys rest
    simp only [List.mem_cons]
    tauto

theorem mlookup_applyIncs (incs : List (Nat × Nat))
    (hn : (mkeys incs).Nodup) (m : List (Nat × Nat)) (p : Nat) :
    mlookup (applyIncs m incs) p =
      match mlookup incs p with
      | some n => some ((mlookup m p).getD 0 + n)
      | none => mlookup m p := by
  induction incs generalizing m with
  | nil => simp [applyIncs, mlookup]
  | cons kv rest ih =>
    obtain ⟨k, v⟩ := kv
    have hn' : (k :: mkeys rest).Nodup := hn
    have hk : k ∉ mkeys rest := (List.nodup_cons.mp hn').1
    have hrest : (mkeys rest).Nodup := (List.nodup_cons.mp hn').2
    show mlookup (applyIncs (minc m k v) rest) p = _
    rw [ih hrest]
    by_cases hp : p = k
    · have hpk : p ∉ mkeys rest := by rw [hp]; exact hk
      have hrn : mlookup rest p = none := (mlookup_eq_none_iff rest p).mpr hpk
      have hcons : mlookup ((k, v) :: rest) p = some v := by
        show (if k = p then some v else mlookup rest p) = some v
        rw [if_pos hp.symm]
      simp only [hrn, hcons]
      rw [mlookup_minc, if_pos hp, hp]
    · have hkp : ¬ k = p := fun h2 => hp h2.symm
      have hlm : mlookup (minc m k v) p = mlookup m p := by
        rw [mlookup_minc, if_neg hp]
      have hcons : mlookup ((k, v) :: rest) p = mlookup rest p := by
        simp [mlookup, hkp]
      rw [hcons]
      cases hrp : mlookup rest p with
      | none => simp [hlm]
      | some n => simp [hlm]

/-! ### Lemmas about the send-update increment map -/

theorem mlookup_incFor (parts : List Nat) (s p : Nat) :
    mlookup (incFor parts s) p =
      if p ∈ parts ∧ p ≠ s then some 1 else none := by
  unfold incFor
  rw [mlookup_foldl_mset]
  by_cases h : p ∈ parts.filter (fun i => i != s)
  · have h2 : p ∈ parts ∧ p ≠ s := by
      obtain ⟨hm, hb⟩ := List.mem_filter.mp h
      exact ⟨hm, by simpa using hb⟩
    simp [h, h2]
  · have h2 : ¬ (p ∈ parts ∧ p ≠ s) := by
      intro ⟨hm, hne⟩
      exact h (List.mem_filter.mpr ⟨hm, by simpa using hne⟩)
    simp [h, h2, mlookup]

theorem nodup_mkeys_incFor (parts : List Nat) (s : Nat) :
    (mkeys (incFor parts s)).Nodup := by
  unfold incFor
  exact nodup_mkeys_foldl_mset _ 1 [] (by simp [mkeys])

theorem mem_mkeys_incFor (parts : List Nat) (s p : Nat) :
    p ∈ mkeys (incFor parts s) ↔ p ∈ parts ∧ p ≠ s := by
  rw [mem_mkeys_iff, mlookup_incFor]
  by_cases h : p ∈ parts ∧ p ≠ s <;> simp [h]

theorem lookup_applySendUpdate (mid : Nat) (pv : Option String)
    (s now : Nat) (parts : List Nat) (c : Conversation) (p : Nat) :
    mlookup ((applySendUpdate mid pv s now (incFor parts s) c).unreadCounts)
        p =
      if p ∈ parts ∧ p ≠ s then
        some ((mlookup c.unreadCounts p).getD 0 + 1)
      else mlookup c.unreadCounts p := by
  show mlookup (applyIncs c.unreadCounts (incFor parts s)) p = _
  rw [mlookup_applyIncs _ (nodup_mkeys_incFor parts s), mlookup_incFor]
  by_cases h : p ∈ parts ∧ p ≠ s <;> simp [h]

/-! ### Lemmas about `$addToSet` -/

theorem mem_addToSet (l : List Nat) (u p : Nat) :
    p ∈ addToSet l u ↔ p = u ∨ p ∈ l := by
  unfold addToSet
  by_cases h : l.contains u
  · have hu : u ∈ l := by simpa using h
    simp only [if_pos h]
    constructor
    · exact Or.inr
    · rintro (rfl | hp)
      · exact hu
      · exact hp
  · simp only [if_neg h, List.mem_append, List.mem_singleton]
    tauto

theorem mem_foldl_addToSet (l : List Nat) (acc : List Nat) (p : Nat) :
    p ∈ l.foldl addToSet acc ↔ p ∈ acc ∨ p ∈ l := by
  induction l generalizing acc with
  | nil => simp
  | cons u rest ih =>
    simp only [List.foldl_cons, List.mem_cons]
    rw [ih, mem_addToSet]
    tauto

/-! ### Lemmas about `find?` and keyed updates -/

/-- Strengthening a `find?` result: if `g` is the first element
satisfying `p` and `g` also satisfies the stronger predicate `q`
(where `q` implies `p`), then `g` is the first element satisfying `q`. -/
theorem find?_of_imp {α : Type} (p q : α → Bool) (l : List α) (g : α)
    (h : l.find? p = some g) (hg : q g = true)
    (himp : ∀ x, q x = true → p x = true) : l.find? q = some g := by
  induction l with
  | nil => simp [List.find?] at h
  | cons x xs ih =>
    cases hp : p x with
    | true =>
      rw [List.find?_cons_of_pos _ hp] at h
      injection h with h
      subst h
      exact List.find?_cons_of_pos _ hg
    | false =>
      rw [List.find?_cons_of_neg _ (by simp [hp])] at h
      have hq : q x = false := by
        cases hqx : q x with
        | false => rfl
        | true => rw [himp x hqx] at hp; exact absurd hp (by simp)
      rw [List.find?_cons_of_neg _ (by simp [hq])]
      exact ih h

/-- A keyed conversation update rewrites the first `p`-match to its
image when `p` is invariant under the update function and the match
carries the updated id. -/
theorem find?_updateConvById_inv (l : List Conversation) (cid : Nat)
    (f : Conversation → Conversation) (p : Conversation → Bool)
    (g : Conversation) (hp : ∀ x, p (f x) = p x) (hgid : g.id = cid)
    (h : l.find? p = some g) :
    (updateConvById l cid f).find? p = some (f g) := by
  induction l with
  | nil => simp [List.find?] at h
  | cons x xs ih =>
    cases hpx : p x with
    | true =>
      rw [List.find?_cons_of_pos _ hpx] at h
      injection h with h
      subst h
      unfold updateConvById
      simp only [List.map_cons, if_pos hgid]
      exact List.find?_cons_of_pos _ (by rw [hp]; exact hpx)
    | false =>
      rw [List.find?_cons_of_neg _ (by simp [hpx])] at h
      unfold updateConvById at *
      simp only [List.map_cons]
      have hhead : p (if x.id = cid then f x else x) = false := by
        by_cases hx : x.id = cid
        · rw [if_pos hx, hp]; exact hpx
        · rw [if_neg hx]; exact hpx
      rw [List.find?_cons_of_neg _ (by simp [hhead])]
      exact ih h

/-- Same statement for the `messages` collection. -/
theorem find?_updateMsgById_inv (l : List Message) (mid : Nat)
    (f : Message → Message) (p : Message → Bool) (g : Message)
    (hp : ∀ x, p (f x) = p x) (hgid : g.id = mid)
    (h : l.find? p = some g) :
    (updateMsgById l mid f).find? p = some (f g) := by
  induction l with
  | nil => simp [List.find?] at h
  | cons x xs ih =>
    cases hpx : p x with
    | true =>
      rw [List.find?_cons_of_pos _ hpx] at h
      injection h with h
      subst h
      unfold updateMsgById
      simp only [List.map_cons, if_pos hgid]
      exact List.find?_cons_of_pos _ (by rw [hp]; exact hpx)
    | false =>
      rw [List.find?_cons_of_neg _ (by simp [hpx])] at h
      unfold updateMsgById at *
      simp only [List.map_cons]
      have hhead : p (if x.id = mid then f x else x) = false := by
        by_cases hx : x.id = mid
        · rw [if_pos hx, hp]; exact hpx
        · rw [if_neg hx]; exact hpx
      rw [List.find?_cons_of_neg _ (by simp [hhead])]
      exact ih h

/-- Documents that do not carry the updated id survive a keyed update
unchanged. -/
theorem mem_updateMsgById_of_ne (l : List Message) (mid : Nat)
    (f : Message → Message) (x : Message) (hx : x ∈ l)
    (hne : x.id ≠ mid) : x ∈ updateMsgById l mid f := by
  unfold updateMsgById
  refine List.mem_map.mpr ⟨x, hx, ?_⟩
  rw [if_neg hne]

/-! ### Lemmas about the newest-first sort -/

theorem mem_insertDesc (m x : Message) (l : List Message) :
    x ∈ insertDesc m l ↔ x = m ∨ x ∈ l := by
  induction l with
  | nil => simp [insertDesc]
  | cons y ys ih =>
    unfold insertDesc
    by_cases h : y.createdAt < m.createdAt
    · simp [h]
    · simp only [if_neg h, List.mem_cons, ih]
      tauto

theorem mem_sortDesc (x : Message) (l : List Message) :
    x ∈ sortDesc l ↔ x ∈ l := by
  induction l with
  | nil => simp [sortDesc]
  | cons y ys ih =>
    unfold sortDesc
    rw [mem_insertDesc]
    simp only [List.mem_cons, ih]

theorem pairwise_insertDesc (m : Message) (l : List Message)
    (h : l.Pairwise (fun a b => b.createdAt ≤ a.createdAt)) :
    (insertDesc m l).Pairwise (fun a b => b.createdAt ≤ a.createdAt) := by
  induction l with
  | nil => simp [insertDesc]
  | cons y ys ih =>
    obtain ⟨hy, hys⟩ := List.pairwise_cons.mp h
    unfold insertDesc
    by_cases hlt : y.createdAt < m.createdAt
    · rw [if_pos hlt]
      refine List.pairwise_cons.mpr ⟨?_, h⟩
      intro z hz
      rcases List.mem_cons.mp hz with rfl | hz
      · exact Nat.le_of_lt hlt
      · exact Nat.le_trans (hy z hz) (Nat.le_of_lt hlt)
    · rw [if_neg hlt]
      refine List.pairwise_cons.mpr ⟨?_, ih hys⟩
      intro z hz
      rcases (mem_insertDesc m z ys).mp hz with rfl | hz
      · exact Nat.le_of_not_lt hlt
      · exact hy z hz

theorem pairwise_sortDesc (l : List Message) :
    (sortDesc l).Pairwise (fun a b => b.createdAt ≤ a.createdAt) := by
  induction l with
  | nil => simp [sortDesc]
  | cons y ys ih => exact pairwise_insertDesc y (sortDesc ys) ih

/-- Evaluation of a send against the conversation actually found: the
message append plus the single conversation update. -/
theorem sendMessage_eq (st : St) (s cid : Nat) (content : Option String)
    (mtype : MsgType) (media : Option Media) (replyTo : Option Nat)
    (now : Nat) (conv : Conversation)
    (h : st.conversations.find? (fun c => c.id == cid) = some conv) :
    sendMessage st s cid content mtype media replyTo now =
      ({ st with
          messages := st.messages ++
            [{ id := st.nextMsgId, conversation := cid, sender := s,
               type := mtype, content := content.map trimString,
               media := media, replyTo := replyTo, createdAt := now }]
          nextMsgId := st.nextMsgId + 1
          conversations := updateConvById st.conversations cid
            (applySendUpdate st.nextMsgId (previewText content mtype) s now
              (incFor conv.participants s)) },
        Res.ok
          { id := st.nextMsgId, conversation := cid, sender := s,
            type := mtype, content := content.map trimString,
            media := media, replyTo := replyTo, createdAt := now }) := by
  simp [sendMessage, h]

/-! ### Claim theorems -/

/-- Claim C1: the spec requires `send` by a non-participant to fail with
`NotAuthorized` and create no message. The code performs no participant
check: user 3 is not a participant of `convAB`, yet `send_message`
succeeds, persists the message, updates the conversation preview, and
increments both participants' unread counters. -/
theorem c1_send_without_participant_check :
    (3 ∉ convAB.participants) ∧
    (sendMessage stAB 3 0 (some "hi") MsgType.text none none 7).2 =
      Res.ok { id := 0, conversation := 0, sender := 3,
               content := some "hi", createdAt := 7 } ∧
    (sendMessage stAB 3 0 (some "hi") MsgType.text none none 7).1.messages =
      [{ id := 0, conversation := 0, sender := 3, content := some "hi",
         createdAt := 7 }] ∧
    (sendMessage stAB 3 0 (some "hi") MsgType.text none none
        7).1.conversations =
      [{ convAB with
          lastMessage := some 0
          lastMessageContent := "hi"
          lastMessageAt := 7
          lastMessageSender := some 3
          unreadCounts := [(1, 1), (2, 1)] }] := by
  decide

/-- Claim C4: the spec requires a send with empty content, no media and
a non-system kind to fail with `ValidationError` and persist nothing.
The code performs no validation: participant 1 sends a `text` message
with absent content and no media, and the message is persisted and
acknowledged `ok`. -/
theorem c4_empty_send_is_persisted :
    (1 ∈ convAB.participants) ∧
    MsgType.text ≠ MsgType.system ∧
    (sendMessage stAB 1 0 none MsgType.text none none 7).2 =
      Res.ok { id := 0, conversation := 0, sender := 1, createdAt := 7 } ∧
    (sendMessage stAB 1 0 none MsgType.text none none 7).1.messages =
      [{ id := 0, conversation := 0, sender := 1, createdAt := 7 }] := by
  decide

/-- Claim C5 counterexample: `getOrCreateDirect(u, u)` is claimed to
fail with `SelfConversationError` and create no conversation. The code
has no self-check: with an empty store, user 7 targeting themself gets a
successful response and a conversation `[7, 7]` is created. -/
theorem c5_self_conversation_created :
    (getOrCreateConversation st0 7 (some 7) 4).2 =
      Res.ok { id := 0, participants := [7, 7],
               unreadCounts := [(7, 0)], lastMessageAt := 4 } ∧
    (getOrCreateConversation st0 7 (some 7) 4).1.conversations.length
      = 1 := by
  decide

/-- Claim C5 amended: `getOrCreateDirect(u, u)` never fails when a
target id is supplied; when no direct conversation matching the
degenerate pair filter exists it creates one with `participants [u,u]`
and a single unread-counter entry `u ↦ 0` (the JS object literal
collapses the duplicated key). -/
theorem c5_amended (st : St) (u now : Nat) :
    (getOrCreateConversation st u (some u) now).2.isOk = true ∧
    (st.conversations.find? (isDirectPairConv u u) = none →
      (getOrCreateConversation st u (some u) now).1.conversations =
        st.conversations ++
          [{ id := st.nextConvId, participants := [u, u],
             unreadCounts := [(u, 0)], lastMessageAt := now }]) := by
  constructor
  · cases h : st.conversations.find? (isDirectPairConv u u) with
    | some c => simp [getOrCreateConversation, h, Res.isOk]
    | none => simp [getOrCreateConversation, h, Res.isOk]
  · intro h
    simp [getOrCreateConversation, h, mset]

/-- Claim C5 amended, witness at `u = 7` on the empty store. -/
theorem c5_amended_witness :
    (st0.conversations.find? (isDirectPairConv 7 7) = none) ∧
    (getOrCreateConversation st0 7 (some 7) 4).1.conversations =
      st0.conversations ++
        [{ id := st0.nextConvId, participants := [7, 7],
           unreadCounts := [(7, 0)], lastMessageAt := 4 }] :=
  ⟨by decide, (c5_amended st0 7 4).2 (by decide)⟩

/-- Claim C8 counterexample: the spec claims a soft-deleted message is
still present in the returned history page as a tombstone record. The
code filters `isDeleted: { $ne: true }` in the query itself, so the
tombstoned `delMsg` is absent from the page returned to participant 1. -/
theorem c8_deleted_message_not_returned :
    delMsg.isDeleted = true ∧
    delMsg ∈ stDel.messages ∧
    1 ∈ convAB.participants ∧
    getMessages stDel 1 0 50 none = Res.ok [] := by
  decide

/-- Claim C2 counterexample: after admin 1 removes member 3 from
`groupG`, the participants shrink to `[1, 2]` but the `unreadCounts`
key set is still `[1, 2, 3]`: the removed member's unread-counter
entry is not deleted, so the claimed key-set invariant fails. -/
theorem c2_remove_leaves_stale_unread_key :
    (removeGroupMember stG 1 "alice" 0 3 "carol" 9).2 = Res.ok () ∧
    (removeGroupMember stG 1 "alice" 0 3 "carol" 9).1.conversations.map
        Conversation.participants = [[1, 2]] ∧
    (removeGroupMember stG 1 "alice" 0 3 "carol" 9).1.conversations.map
        (fun c => mkeys c.unreadCounts) = [[1, 2, 3]] ∧
    ¬ ∀ c ∈ (removeGroupMember stG 1 "alice" 0 3 "carol" 9).1.conversations,
        keysMatchParticipants c := by
  decide

/-- Claim C3: after a successful send, every participant other than the
actor has their unread counter incremented by exactly 1 (`$inc`), the
actor's entry is unchanged, and the preview fields (`lastMessage`,
`lastMessageContent`, `lastMessageSender`, `lastMessageAt`) point at the
new message. -/
theorem c3_send_increments_unread (st : St) (s cid : Nat)
    (content : Option String) (mtype : MsgType) (media : Option Media)
    (replyTo : Option Nat) (now : Nat) (conv : Conversation)
    (h : st.conversations.find? (fun c => c.id == cid) = some conv) :
    (sendMessage st s cid content mtype media replyTo now).2 =
      Res.ok { id := st.nextMsgId, conversation := cid, sender := s,
               type := mtype, content := content.map trimString,
               media := media, replyTo := replyTo, createdAt := now } ∧
    ∃ conv',
      (sendMessage st s cid content mtype media replyTo
          now).1.conversations.find? (fun c => c.id == cid) = some conv' ∧
      conv'.participants = conv.participants ∧
      (∀ p, p ∈ conv.participants → p ≠ s →
        mlookup conv'.unreadCounts p =
          some ((mlookup conv.unreadCounts p).getD 0 + 1)) ∧
      mlookup conv'.unreadCounts s = mlookup conv.unreadCounts s ∧
      conv'.lastMessage = some st.nextMsgId ∧
      conv'.lastMessageSender = some s ∧
      conv'.lastMessageAt = now ∧
      conv'.lastMessageContent =
        (previewText content mtype).getD conv.lastMessageContent := by
  have hgid : conv.id = cid := by simpa using List.find?_some h
  rw [sendMessage_eq st s cid content mtype media replyTo now conv h]
  refine ⟨rfl,
    applySendUpdate st.nextMsgId (previewText content mtype) s now
      (incFor conv.participants s) conv,
    ?_, rfl, ?_, ?_, rfl, rfl, rfl, rfl⟩
  · exact find?_updateConvById_inv _ _ _ _ conv (fun x => rfl) hgid h
  · intro p hp hps
    rw [lookup_applySendUpdate, if_pos ⟨hp, hps⟩]
  · rw [lookup_applySendUpdate, if_neg]
    intro hss
    exact hss.2 rfl

/-- Claim C3, witness: user 1 sends "hi" in `convAB`; user 2's counter
becomes 1, user 1's stays 0, and the preview points at the new message. -/
theorem c3_witness :
    (stAB.conversations.find? (fun c => c.id == 0) = some convAB) ∧
    ((sendMessage stAB 1 0 (some "hi") MsgType.text none none 7).2 =
      Res.ok { id := stAB.nextMsgId, conversation := 0, sender := 1,
               type := MsgType.text,
               content := (some "hi").map trimString,
               media := none, replyTo := none, createdAt := 7 } ∧
    ∃ conv',
      (sendMessage stAB 1 0 (some "hi") MsgType.text none none
          7).1.conversations.find? (fun c => c.id == 0) = some conv' ∧
      conv'.participants = convAB.participants ∧
      (∀ p, p ∈ convAB.participants → p ≠ 1 →
        mlookup conv'.unreadCounts p =
          some ((mlookup convAB.unreadCounts p).getD 0 + 1)) ∧
      mlookup conv'.unreadCounts 1 = mlookup convAB.unreadCounts 1 ∧
      conv'.lastMessage = some stAB.nextMsgId ∧
      conv'.lastMessageSender = some 1 ∧
      conv'.lastMessageAt = 7 ∧
      conv'.lastMessageContent =
        (previewText (some "hi") MsgType.text).getD
          convAB.lastMessageContent) :=
  ⟨rfl, c3_send_increments_unread stAB 1 0 (some "hi") MsgType.text none
    none 7 convAB rfl⟩

/-- Claim C9: the conversation-side effect of a send is one single
update document (`applySendUpdate`) combining the preview fields and the
`$inc` map, and each increment is a relative atomic add. Hence two
near-simultaneous sends by `s1` and `s2`, interleaved in either order,
leave any third participant's unread counter at exactly its old value
plus 2 — no increment is lost. -/
theorem c9_concurrent_sends_lose_no_increment (c : Conversation)
    (s1 s2 p m1 m2 t1 t2 : Nat) (pv1 pv2 : Option String)
    (hp : p ∈ c.participants) (h1 : p ≠ s1) (h2 : p ≠ s2) :
    mlookup ((applySendUpdate m2 pv2 s2 t2 (incFor c.participants s2)
        (applySendUpdate m1 pv1 s1 t1 (incFor c.participants s1)
          c)).unreadCounts) p =
      some ((mlookup c.unreadCounts p).getD 0 + 2) ∧
    mlookup ((applySendUpdate m1 pv1 s1 t1 (incFor c.participants s1)
        (applySendUpdate m2 pv2 s2 t2 (incFor c.participants s2)
          c)).unreadCounts) p =
      some ((mlookup c.unreadCounts p).getD 0 + 2) := by
  constructor
  · rw [lookup_applySendUpdate, if_pos ⟨hp, h2⟩,
      lookup_applySendUpdate, if_pos ⟨hp, h1⟩]
    rfl
  · rw [lookup_applySendUpdate, if_pos ⟨hp, h1⟩,
      lookup_applySendUpdate, if_pos ⟨hp, h2⟩]
    rfl

/-- Claim C9, witness: in `groupG`, senders 1 and 2 race; participant
3's counter ends at 2 under both interleavings. -/
theorem c9_witness :
    (3 ∈ groupG.participants) ∧ (3 ≠ 1) ∧ (3 ≠ 2) ∧
    (mlookup ((applySendUpdate 5 (some "a") 2 11
        (incFor groupG.participants 2)
        (applySendUpdate 4 (some "b") 1 10 (incFor groupG.participants 1)
          groupG)).unreadCounts) 3 =
      some ((mlookup groupG.unreadCounts 3).getD 0 + 2) ∧
    mlookup ((applySendUpdate 4 (some "b") 1 10
        (incFor groupG.participants 1)
        (applySendUpdate 5 (some "a") 2 11 (incFor groupG.participants 2)
          groupG)).unreadCounts) 3 =
      some ((mlookup groupG.unreadCounts 3).getD 0 + 2)) :=
  ⟨by decide, by decide, by decide,
    c9_concurrent_sends_lose_no_increment groupG 1 2 3 4 5 10 11
      (some "b") (some "a") (by decide) (by decide) (by decide)⟩

/-- Claim C10: the mark-as-read paths (`markConversationRead` and
socket `mark_seen`) perform no participant check: for any caller `u`
and any conversation that resolves, the REST handler answers success
and both paths `$set` `unreadCounts[u] := 0`, inserting a key for `u`
even when `u` is not a participant. -/
theorem c10_mark_read_no_participant_check (st : St) (u cid : Nat)
    (c : Conversation)
    (h : st.conversations.find? (fun x => x.id == cid) = some c) :
    (markConversationRead st u cid).2 = Res.ok () ∧
    (markConversationRead st u cid).1.conversations.find?
        (fun x => x.id == cid) =
      some { c with unreadCounts := mset c.unreadCounts u 0 } ∧
    mlookup (mset c.unreadCounts u 0) u = some 0 ∧
    u ∈ mkeys (mset c.unreadCounts u 0) ∧
    (markSeen st u cid none).conversations.find? (fun x => x.id == cid) =
      some { c with unreadCounts := mset c.unreadCounts u 0 } := by
  have hgid : c.id = cid := by simpa using List.find?_some h
  refine ⟨rfl, ?_, ?_, ?_, ?_⟩
  · exact find?_updateConvById_inv _ _ _ _ c (fun x => rfl) hgid h
  · rw [mlookup_mset, if_pos rfl]
  · exact (mem_mkeys_mset _ _ _ _).mpr (Or.inl rfl)
  · exact find?_updateConvById_inv _ _ _ _ c (fun x => rfl) hgid h

/-- Claim C10, witness: user 3 is not a participant of `convAB`, yet
marking it read succeeds and inserts the key `3 ↦ 0`. -/
theorem c10_witness :
    (stAB.conversations.find? (fun x => x.id == 0) = some convAB) ∧
    (3 ∉ convAB.participants) ∧
    ((markConversationRead stAB 3 0).2 = Res.ok () ∧
    (markConversationRead stAB 3 0).1.conversations.find?
        (fun x => x.id == 0) =
      some { convAB with unreadCounts := mset convAB.unreadCounts 3 0 } ∧
    mlookup (mset convAB.unreadCounts 3 0) 3 = some 0 ∧
    3 ∈ mkeys (mset convAB.unreadCounts 3 0) ∧
    (markSeen stAB 3 0 none).conversations.find? (fun x => x.id == 0) =
      some { convAB with unreadCounts := mset convAB.unreadCounts 3 0 }) :=
  ⟨rfl, by decide, c10_mark_read_no_participant_check stAB 3 0 convAB rfl⟩

/-- Claim C6: for a distinct pair, `getOrCreateDirect` is idempotent —
the second call returns the same conversation (same id) and leaves the
state untouched; it preserves "at most one direct conversation per
pair"; and a freshly created conversation carries
`unreadCounts = {a: 0, b: 0}`. -/
theorem c6_getOrCreateDirect_idempotent (a b now1 now2 : Nat) (st : St)
    (hab : a ≠ b) :
    ∃ st1 c1,
      getOrCreateConversation st a (some b) now1 = (st1, Res.ok c1) ∧
      getOrCreateConversation st1 a (some b) now2 = (st1, Res.ok c1) ∧
      ((st.conversations.filter (isDirectPairConv a b)).length ≤ 1 →
        (st1.conversations.filter (isDirectPairConv a b)).length ≤ 1) ∧
      (st.conversations.find? (isDirectPairConv a b) = none →
        c1.type = ConvType.direct ∧ c1.participants = [a, b] ∧
          c1.unreadCounts = [(a, 0), (b, 0)]) := by
  cases hfind : st.conversations.find? (isDirectPairConv a b) with
  | some c =>
    refine ⟨st, c, ?_, ?_, fun hc => hc, ?_⟩
    · simp [getOrCreateConversation, hfind]
    · simp [getOrCreateConversation, hfind]
    · intro hn
      exact Option.noConfusion hn
  | none =>
    have hmap : mset (mset ([] : List (Nat × Nat)) a 0) b 0
        = [(a, 0), (b, 0)] := by
      have hba : ¬ a = b := hab
      simp [mset, hba]
    have hpred : isDirectPairConv a b
        { id := st.nextConvId, type := .direct, participants := [a, b],
          unreadCounts := mset (mset [] a 0) b 0,
          lastMessageAt := now1 } = true := by
      simp [isDirectPairConv]
    refine ⟨{ st with
        conversations := st.conversations ++
          [{ id := st.nextConvId, type := .direct, participants := [a, b],
             unreadCounts := mset (mset [] a 0) b 0,
             lastMessageAt := now1 }]
        nextConvId := st.nextConvId + 1 },
      { id := st.nextConvId, type := .direct, participants := [a, b],
        unreadCounts := mset (mset [] a 0) b 0, lastMessageAt := now1 },
      ?_, ?_, ?_, ?_⟩
    · simp [getOrCreateConversation, hfind]
    · simp [getOrCreateConversation, hfind, hpred]
    · intro _
      have hnil : st.conversations.filter (isDirectPairConv a b) = [] := by
        rw [List.filter_eq_nil_iff]
        exact List.find?_eq_none.mp hfind
      show ((st.conversations ++ [_]).filter (isDirectPairConv a b)).length
        ≤ 1
      rw [List.filter_append, hnil]
      simp [hpred]
    · intro _
      exact ⟨rfl, rfl, hmap⟩

/-- Claim C6, witness: users 1 and 2 on the empty store. -/
theorem c6_witness :
    (1 : Nat) ≠ 2 ∧
    ∃ st1 c1,
      getOrCreateConversation st0 1 (some 2) 5 = (st1, Res.ok c1) ∧
      getOrCreateConversation st1 1 (some 2) 6 = (st1, Res.ok c1) ∧
      ((st0.conversations.filter (isDirectPairConv 1 2)).length ≤ 1 →
        (st1.conversations.filter (isDirectPairConv 1 2)).length ≤ 1) ∧
      (st0.conversations.find? (isDirectPairConv 1 2) = none →
        c1.type = ConvType.direct ∧ c1.participants = [1, 2] ∧
          c1.unreadCounts = [(1, 0), (2, 0)]) :=
  ⟨by decide, c6_getOrCreateDirect_idempotent 1 2 5 6 st0 (by decide)⟩

/-- Claim C7: deleting a message as a non-sender fails (the REST route
answers 404 "Message not found or unauthorized", the socket event acks
an error) and leaves the store untouched; deleting as the sender
succeeds, and the message is thereafter read back with
`isDeleted = true` and the fixed tombstone content. -/
theorem c7_delete_message_sender_only (st : St) (u mid : Nat)
    (m : Message)
    (hm : st.messages.find? (fun x => x.id == mid) = some m)
    (huniq : ∀ x ∈ st.messages, x.id = mid → x = m) :
    (m.sender ≠ u →
      deleteMessage st u mid =
        (st, Res.err "Message not found or unauthorized") ∧
      ∀ cid, deleteMessageSocket st u cid mid =
        (st, Res.err "Not authorized or message not found")) ∧
    (m.sender = u →
      (deleteMessage st u mid).2 = Res.ok () ∧
      (deleteMessage st u mid).1.messages.find? (fun x => x.id == mid) =
        some { m with isDeleted := true,
                      content := some "This message was deleted" } ∧
      (∀ x ∈ st.messages, x.id ≠ mid →
        x ∈ (deleteMessage st u mid).1.messages) ∧
      ∀ cid, deleteMessageSocket st u cid mid =
        ((deleteMessage st u mid).1, Res.ok ())) := by
  have hmid : m.id = mid := by simpa using List.find?_some hm
  constructor
  · intro hne
    have hnone : st.messages.find?
        (fun x => x.id == mid && x.sender == u) = none := by
      rw [List.find?_eq_none]
      intro x hx hpx
      simp only [Bool.and_eq_true, beq_iff_eq] at hpx
      exact hne ((huniq x hx hpx.1) ▸ hpx.2)
    constructor
    · simp [deleteMessage, hnone]
    · intro cid
      simp [deleteMessageSocket, hnone]
  · intro hs
    have hq : (fun x => x.id == mid && x.sender == u) m = true := by
      simp [hmid, hs]
    have hfind2 : st.messages.find?
        (fun x => x.id == mid && x.sender == u) = some m :=
      find?_of_imp _ _ _ _ hm hq
        (fun x hx => (Bool.and_eq_true _ _).mp hx |>.1)
    have hstate : (deleteMessage st u mid).1.messages =
        updateMsgById st.messages mid
          (fun x => { x with isDeleted := true,
                             content := some "This message was deleted" }) := by
      simp [deleteMessage, hfind2]
    refine ⟨?_, ?_, ?_, ?_⟩
    · simp [deleteMessage, hfind2]
    · rw [hstate]
      exact find?_updateMsgById_inv _ _ _ _ m (fun x => rfl) hmid hm
    · intro x hx hne
      rw [hstate]
      exact mem_updateMsgById_of_ne _ _ _ x hx hne
    · intro cid
      simp [deleteMessage, deleteMessageSocket, hfind2]

/-- Claim C7, witness: in `stMsg`, user 2 cannot delete user 1's
message; user 1 can, and the read-back shows the tombstone. -/
theorem c7_witness :
    (stMsg.messages.find? (fun x => x.id == 0) = some msgHi) ∧
    (∀ x ∈ stMsg.messages, x.id = 0 → x = msgHi) ∧
    msgHi.sender ≠ 2 ∧ msgHi.sender = 1 ∧
    deleteMessage stMsg 2 0 =
      (stMsg, Res.err "Message not found or unauthorized") ∧
    (deleteMessage stMsg 1 0).2 = Res.ok () ∧
    (deleteMessage stMsg 1 0).1.messages.find? (fun x => x.id == 0) =
      some { msgHi with isDeleted := true,
                        content := some "This message was deleted" } :=
  ⟨rfl, by decide, by decide, rfl,
    ((c7_delete_message_sender_only stMsg 2 0 msgHi rfl (by decide)).1
      (by decide)).1,
    ((c7_delete_message_sender_only stMsg 1 0 msgHi rfl (by decide)).2
      rfl).1,
    ((c7_delete_message_sender_only stMsg 1 0 msgHi rfl (by decide)).2
      rfl).2.1⟩

/-- Claim C8 amended: message history is returned newest-first, at most
`limit` long, only from the requested conversation and (for a `before`
cursor) strictly older than the cursor — but soft-deleted messages are
excluded by the query itself (`isDeleted: { $ne: true }`), not merely at
the render layer: no tombstone record appears in the page. -/
theorem c8_amended_history_excludes_deleted (st : St)
    (u cid limit : Nat) (before : Option Nat) (page : List Message)
    (h : getMessages st u cid limit before = Res.ok page) :
    page.length ≤ limit ∧
    (∀ m ∈ page, m ∈ st.messages ∧ m.conversation = cid ∧
      m.isDeleted = false ∧ ∀ b, before = some b → m.createdAt < b) ∧
    page.Pairwise (fun x y => y.createdAt ≤ x.createdAt) ∧
    ∀ m ∈ st.messages, m.isDeleted = true → m ∉ page := by
  cases hfind : st.conversations.find?
      (fun c => c.id == cid && c.participants.contains u) with
  | none =>
    rw [getMessages, hfind] at h
    cases h
  | some c =>
    rw [getMessages, hfind] at h
    injection h with h
    subst h
    refine ⟨?_, ?_, ?_, ?_⟩
    · rw [List.length_take]
      exact min_le_left _ _
    · intro m hmem
      have hsort := mem_sortDesc m _ |>.mp (List.mem_of_mem_take hmem)
      have hfilter := List.mem_filter.mp hsort
      have hprops := hfilter.2
      simp only [messagePageFilter, Bool.and_eq_true, beq_iff_eq,
        Bool.not_eq_true'] at hprops
      refine ⟨hfilter.1, hprops.1.1, hprops.1.2, ?_⟩
      intro b hb
      rw [hb] at hprops
      simpa using hprops.2
    · exact List.Pairwise.sublist (List.take_sublist _ _)
        (pairwise_sortDesc _)
    · intro m _ hdel hmem
      have hsort := mem_sortDesc m _ |>.mp (List.mem_of_mem_take hmem)
      have hfilter := List.mem_filter.mp hsort
      have hprops := hfilter.2
      simp only [messagePageFilter, Bool.and_eq_true,
        Bool.not_eq_true'] at hprops
      rw [hdel] at hprops
      exact absurd hprops.1.2 (by simp)

/-- Claim C8 amended, witness: participant 1 fetches `stMsg` history
and gets the single live message back. -/
theorem c8_amended_witness :
    (getMessages stMsg 1 0 50 none = Res.ok [msgHi]) ∧
    ([msgHi].length ≤ 50 ∧
    (∀ m ∈ [msgHi], m ∈ stMsg.messages ∧ m.conversation = 0 ∧
      m.isDeleted = false ∧ ∀ b, (none : Option Nat) = some b →
        m.createdAt < b) ∧
    List.Pairwise (fun x y => y.createdAt ≤ x.createdAt) [msgHi] ∧
    ∀ m ∈ stMsg.messages, m.isDeleted = true → m ∉ [msgHi]) :=
  ⟨by decide,
    c8_amended_history_excludes_deleted stMsg 1 0 50 none [msgHi]
      (by decide)⟩

/-- Claim C2 amended: the key-set invariant
`set(unreadCounts.keys()) == participants` is established by
`createGroup` and preserved by `addGroupMembers` and by `send` — but
`removeGroupMember` and `leaveGroup` do not delete the removed user's
unread-counter entry: they leave `unreadCounts` untouched while pulling
the target from `participants`, so after a removal the key set still
contains the removed user and the invariant fails whenever that user
had an entry. -/
theorem c2_amended_unread_invariant :
    (∀ (st : St) (creator : Nat) (uname : String) (gname : Option String)
        (parts : List Nat) (gdesc gav : Option String) (now : Nat),
      ((gname.getD "").isEmpty || decide (parts.length < 2)) = false →
      ∃ g, (createGroup st creator uname gname parts gdesc gav now).2 =
          Res.ok g ∧ keysMatchParticipants g) ∧
    (∀ (st : St) (actor : Nat) (auname : String) (gid : Nat)
        (uids : List Nat) (aduname : String) (now : Nat)
        (g : Conversation),
      st.conversations.find? (fun c => c.id == gid) = some g →
      g.type = ConvType.group → g.admins.contains actor = true →
      uids ≠ [] →
      uids.filter (fun i => !g.participants.contains i) ≠ [] →
      keysMatchParticipants g →
      (addGroupMembers st actor auname gid uids aduname now).2 =
        Res.ok () ∧
      ∃ g', (addGroupMembers st actor auname gid uids aduname
          now).1.conversations.find? (fun c => c.id == gid) = some g' ∧
        keysMatchParticipants g') ∧
    (∀ (st : St) (s cid : Nat) (content : Option String)
        (mtype : MsgType) (media : Option Media) (replyTo : Option Nat)
        (now : Nat) (conv : Conversation),
      st.conversations.find? (fun c => c.id == cid) = some conv →
      keysMatchParticipants conv →
      ∃ conv', (sendMessage st s cid content mtype media replyTo
          now).1.conversations.find? (fun c => c.id == cid) =
            some conv' ∧
        keysMatchParticipants conv') ∧
    (∀ (st : St) (actor : Nat) (auname : String) (gid t : Nat)
        (runame : String) (now : Nat) (g : Conversation),
      st.conversations.find? (fun c => c.id == gid) = some g →
      g.type = ConvType.group → g.admins.contains actor = true →
      g.createdBy ≠ some t →
      (removeGroupMember st actor auname gid t runame now).2 =
        Res.ok () ∧
      ∃ g', (removeGroupMember st actor auname gid t runame
          now).1.conversations.find? (fun c => c.id == gid) = some g' ∧
        g'.unreadCounts = g.unreadCounts ∧
        g'.participants = g.participants.filter (fun i => i != t) ∧
        (t ∈ mkeys g.unreadCounts → ¬ keysMatchParticipants g')) ∧
    (∀ (st : St) (uid : Nat) (uname : String) (gid : Nat) (now : Nat)
        (g : Conversation),
      st.conversations.find? (fun c => c.id == gid) = some g →
      g.type = ConvType.group → g.participants.contains uid = true →
      g.createdBy ≠ some uid →
      (leaveGroup st uid uname gid now).2 = Res.ok () ∧
      ∃ g', (leaveGroup st uid uname gid
          now).1.conversations.find? (fun c => c.id == gid) = some g' ∧
        g'.unreadCounts = g.unreadCounts ∧
        g'.participants = g.participants.filter (fun i => i != uid) ∧
        (uid ∈ mkeys g.unreadCounts → ¬ keysMatchParticipants g')) := by
  refine ⟨?_, ?_, ?_, ?_, ?_⟩
  · -- createGroup establishes the invariant
    intro st creator uname gname parts gdesc gav now hcond
    refine ⟨{ id := st.nextConvId
              type := .group
              groupName := gname
              groupAvatar := gav
              groupDescription := gdesc
              participants := dedupFirst (creator :: parts)
              admins := [creator]
              createdBy := some creator
              lastMessageContent :=
                (if uname.isEmpty then "Someone" else uname)
                  ++ " created the group"
              lastMessageAt := now
              unreadCounts := (dedupFirst (creator :: parts)).foldl
                (fun m u => mset m u 0) [] }, ?_, ?_, ?_⟩
    · simp [createGroup, hcond]
    · intro x hx
      rcases (mem_mkeys_foldl_mset _ 0 [] x).mp hx with h3 | h3
      · exact h3
      · simp [mkeys] at h3
    · intro x hx
      exact (mem_mkeys_foldl_mset _ 0 [] x).mpr (Or.inl hx)
  · -- addGroupMembers preserves the invariant
    intro st actor auname gid uids aduname now g h htype hadm hne hnm hk
    have hgid : g.id = gid := by simpa using List.find?_some h
    have hadm' : actor ∈ g.admins := by simpa using hadm
    have hq : (fun c => c.id == gid && c.type == ConvType.group &&
        c.admins.contains actor) g = true := by
      simp [hgid, htype, hadm']
    have hfindR : st.conversations.find?
        (fun c => c.id == gid && c.type == ConvType.group &&
          c.admins.contains actor) = some g :=
      find?_of_imp _ _ _ _ h hq
        (fun x hx => ((Bool.and_eq_true _ _).mp
          ((Bool.and_eq_true _ _).mp hx).1).1)
    have hE : ¬ (uids.isEmpty = true) := by
      cases uids with
      | nil => exact absurd rfl hne
      | cons a l => simp
    have hNM : ¬ ((uids.filter
        (fun i => !g.participants.contains i)).isEmpty = true) := by
      cases hF : uids.filter (fun i => !g.participants.contains i) with
      | nil => exact absurd hF hnm
      | cons a l => simp
    have heq : addGroupMembers st actor auname gid uids aduname now =
        ({ st with
            conversations := updateConvById
              (updateConvById st.conversations gid
                (addMembersUpdate
                  (uids.filter (fun i => !g.participants.contains i))))
              gid
              (initUnreadUpdate
                (uids.filter (fun i => !g.participants.contains i)))
            messages := st.messages ++
              [{ id := st.nextMsgId
                 conversation := gid
                 sender := actor
                 type := MsgType.system
                 content := some (auname ++ " added " ++ aduname)
                 createdAt := now }]
            nextMsgId := st.nextMsgId + 1 }, Res.ok ()) := by
      unfold addGroupMembers
      rw [if_neg hE, hfindR]
      dsimp only
      rw [if_neg hNM]
    have hstep1 := find?_updateConvById_inv st.conversations gid
      (addMembersUpdate
        (uids.filter (fun i => !g.participants.contains i)))
      (fun c => c.id == gid) g (fun x => rfl) hgid h
    have hstep2 := find?_updateConvById_inv _ gid
      (initUnreadUpdate
        (uids.filter (fun i => !g.participants.contains i)))
      (fun c => c.id == gid)
      (addMembersUpdate
        (uids.filter (fun i => !g.participants.contains i)) g)
      (fun x => rfl)
      (show (addMembersUpdate
        (uids.filter (fun i => !g.participants.contains i)) g).id = gid
        from hgid)
      hstep1
    refine ⟨by rw [heq],
      initUnreadUpdate
        (uids.filter (fun i => !g.participants.contains i))
        (addMembersUpdate
          (uids.filter (fun i => !g.participants.contains i)) g),
      ?_, ?_, ?_⟩
    · rw [heq]
      exact hstep2
    · intro x hx
      rcases (mem_mkeys_foldl_mset _ 0 _ x).mp hx with h3 | h3
      · exact (mem_foldl_addToSet _ _ x).mpr (Or.inr h3)
      · exact (mem_foldl_addToSet _ _ x).mpr (Or.inl (hk.1 x h3))
    · intro x hx
      rcases (mem_foldl_addToSet _ _ x).mp hx with h3 | h3
      · exact (mem_mkeys_foldl_mset _ 0 _ x).mpr (Or.inr (hk.2 x h3))
      · exact (mem_mkeys_foldl_mset _ 0 _ x).mpr (Or.inl h3)
  · -- send preserves the invariant
    intro st s cid content mtype media replyTo now conv h hk
    have hgid : conv.id = cid := by simpa using List.find?_some h
    rw [sendMessage_eq st s cid content mtype media replyTo now conv h]
    refine ⟨applySendUpdate st.nextMsgId (previewText content mtype) s now
      (incFor conv.participants s) conv, ?_, ?_, ?_⟩
    · exact find?_updateConvById_inv _ _ _ _ conv (fun x => rfl) hgid h
    · intro x hx
      rcases (mem_mkeys_applyIncs _ _ x).mp hx with h3 | h3
      · exact hk.1 x h3
      · exact ((mem_mkeys_incFor _ _ x).mp h3).1
    · intro x hx
      exact (mem_mkeys_applyIncs _ _ x).mpr (Or.inl (hk.2 x hx))
  · -- removeGroupMember leaves the stale unread entry
    intro st actor auname gid t runame now g h htype hadm hcr
    have hgid : g.id = gid := by simpa using List.find?_some h
    have hadm' : actor ∈ g.admins := by simpa using hadm
    have hq : (fun c => c.id == gid && c.type == ConvType.group &&
        c.admins.contains actor) g = true := by
      simp [hgid, htype, hadm']
    have hfindR : st.conversations.find?
        (fun c => c.id == gid && c.type == ConvType.group &&
          c.admins.contains actor) = some g :=
      find?_of_imp _ _ _ _ h hq
        (fun x hx => ((Bool.and_eq_true _ _).mp
          ((Bool.and_eq_true _ _).mp hx).1).1)
    have hCR : ¬ ((g.createdBy == some t) = true) := by simp [hcr]
    have heq : removeGroupMember st actor auname gid t runame now =
        ({ st with
            conversations := updateConvById st.conversations gid
              (pullMemberUpdate t)
            messages := st.messages ++
              [{ id := st.nextMsgId
                 conversation := gid
                 sender := actor
                 type := MsgType.system
                 content := some (auname ++ " removed " ++ runame)
                 createdAt := now }]
            nextMsgId := st.nextMsgId + 1 }, Res.ok ()) := by
      unfold removeGroupMember
      rw [hfindR]
      dsimp only
      rw [if_neg hCR]
    refine ⟨by rw [heq], pullMemberUpdate t g, ?_, rfl, rfl, ?_⟩
    · rw [heq]
      exact find?_updateConvById_inv _ _ _ _ g (fun x => rfl) hgid h
    · intro hkeys hkm
      have hmem := hkm.1 t hkeys
      have hsplit := List.mem_filter.mp hmem
      simp at hsplit
  · -- leaveGroup leaves the stale unread entry
    intro st uid uname gid now g h htype hpart hcr
    have hgid : g.id = gid := by simpa using List.find?_some h
    have hpart' : uid ∈ g.participants := by simpa using hpart
    have hq : (fun c => c.id == gid && c.type == ConvType.group &&
        c.participants.contains uid) g = true := by
      simp [hgid, htype, hpart']
    have hfindR : st.conversations.find?
        (fun c => c.id == gid && c.type == ConvType.group &&
          c.participants.contains uid) = some g :=
      find?_of_imp _ _ _ _ h hq
        (fun x hx => ((Bool.and_eq_true _ _).mp
          ((Bool.and_eq_true _ _).mp hx).1).1)
    have hCR : ¬ ((g.createdBy == some uid) = true) := by simp [hcr]
    have heq : leaveGroup st uid uname gid now =
        ({ st with
            conversations := updateConvById st.conversations gid
              (pullMemberUpdate uid)
            messages := st.messages ++
              [{ id := st.nextMsgId
                 conversation := gid
                 sender := uid
                 type := MsgType.system
                 content := some (uname ++ " left the group")
                 createdAt := now }]
            nextMsgId := st.nextMsgId + 1 }, Res.ok ()) := by
      unfold leaveGroup
      rw [hfindR]
      dsimp only
      rw [if_neg hCR]
    refine ⟨by rw [heq], pullMemberUpdate uid g, ?_, rfl, rfl, ?_⟩
    · rw [heq]
      exact find?_updateConvById_inv _ _ _ _ g (fun x => rfl) hgid h
    · intro hkeys hkm
      have hmem := hkm.1 uid hkeys
      have hsplit := List.mem_filter.mp hmem
      simp at hsplit

/-- Claim C2 amended, witness: concrete runs of all five operations on
`st0` / `stG` — creation and addition keep `keysMatchParticipants`, a
send keeps it, and removal/leaving keep the stale key (here key 3
resp. 2), breaking it. -/
theorem c2_amended_witness :
    (∃ g, (createGroup st0 1 "al" (some "G") [2, 3] none none 7).2 =
        Res.ok g ∧ keysMatchParticipants g) ∧
    ((addGroupMembers stG 1 "al" 0 [4] "dave" 7).2 = Res.ok () ∧
      ∃ g', (addGroupMembers stG 1 "al" 0 [4] "dave"
          7).1.conversations.find? (fun c => c.id == 0) = some g' ∧
        keysMatchParticipants g') ∧
    (∃ conv', (sendMessage stG 1 0 (some "x") MsgType.text none none
        7).1.conversations.find? (fun c => c.id == 0) = some conv' ∧
      keysMatchParticipants conv') ∧
    ((removeGroupMember stG 1 "al" 0 3 "carol" 9).2 = Res.ok () ∧
      ∃ g', (removeGroupMember stG 1 "al" 0 3 "carol"
          9).1.conversations.find? (fun c => c.id == 0) = some g' ∧
        g'.unreadCounts = groupG.unreadCounts ∧
        g'.participants = groupG.participants.filter (fun i => i != 3) ∧
        (3 ∈ mkeys groupG.unreadCounts → ¬ keysMatchParticipants g')) ∧
    ((leaveGroup stG 2 "bob" 0 9).2 = Res.ok () ∧
      ∃ g', (leaveGroup stG 2 "bob" 0 9).1.conversations.find?
          (fun c => c.id == 0) = some g' ∧
        g'.unreadCounts = groupG.unreadCounts ∧
        g'.participants = groupG.participants.filter (fun i => i != 2) ∧
        (2 ∈ mkeys groupG.unreadCounts → ¬ keysMatchParticipants g')) :=
  ⟨c2_amended_unread_invariant.1 st0 1 "al" (some "G") [2, 3] none none 7
      (by decide),
   c2_amended_unread_invariant.2.1 stG 1 "al" 0 [4] "dave" 7 groupG rfl
      (by decide) (by decide) (by decide) (by decide) (by decide),
   c2_amended_unread_invariant.2.2.1 stG 1 0 (some "x") MsgType.text none
      none 7 groupG rfl (by decide),
   c2_amended_unread_invariant.2.2.2.1 stG 1 "al" 0 3 "carol" 9 groupG
      rfl (by decide) (by decide) (by decide),
   c2_amended_unread_invariant.2.2.2.2 stG 2 "bob" 0 9 groupG rfl
      (by decide) (by decide) (by decide)⟩

end Pulse
